import Mathlib

/- Shallow embedding of the HFT trading system core: the position sizer and
   protective-order planner of `modules/risk_manager.py` and the pure
   price-action signal engine of `modules/strategies.py`.

   Modelling conventions: Python floats become exact rationals; the
   collaborator reads (account balance, symbol metadata, open orders,
   position info) become explicit arguments; `while` loops become
   structurally recursive functions with an explicit fuel argument
   (the theorems either hold for every fuel or state stabilisation of the
   loop); logging statements have no effect and are dropped. -/

/-- `get_step_size` (risk_manager.py:20-32): parse the exchange
min-quantity field.  `none` models a string that fails float parsing,
which yields the 0.001 default; a parsed zero is also replaced by the
default. -/
def get_step_size (min_qty_str : Option ℚ) : ℚ :=
  match min_qty_str with
  | none => 1/1000
  | some step_size => if step_size = 0 then 1/1000 else step_size

/-- Largest `e` with `b * 10^e ≤ a` (for `0 < b ≤ a` and enough fuel):
the floor of `log10 (a/b)`. -/
def flog10F : ℕ → ℕ → ℕ → ℕ
  | 0, _, _ => 0
  | fuel+1, a, b => if b * 10 ≤ a then flog10F fuel a (b * 10) + 1 else 0

/-- Least `e` with `b ≤ a * 10^e` (for `0 < a < b` and enough fuel):
the ceiling of `log10 (b/a)`. -/
def clog10F : ℕ → ℕ → ℕ → ℕ
  | 0, _, _ => 0
  | fuel+1, b, a => if b ≤ a then 0 else clog10F fuel b (a * 10) + 1

/-- `⌊log10 (s^2)⌋` for a nonzero rational `s`, computed from numerator
and denominator (`flog10F`/`clog10F` are run with enough fuel, see
`ratLog10Sq_spec`). -/
def ratLog10Sq (s : ℚ) : ℤ :=
  let a := s.num.natAbs ^ 2
  let b := s.den ^ 2
  if b ≤ a then (flog10F (a + b) a b : ℤ) else -(clog10F (a + b) b a : ℤ)

/-- `round(-math.log10(step_size))` (risk_manager.py:39) for a nonzero
rational step size: the integer `k` characterised by
`10^(-2k-1) ≤ s^2 ≤ 10^(-2k+1)` (see `pyRoundNegLog10_spec`).  For
rational `s` the square is never an odd power of ten, so the bounds are
attained only at even powers and `k` is exactly the rounded value of
`-log10 s`; no rounding ties occur, hence Python's round-half-even and
round-half-up agree here. -/
def pyRoundNegLog10 (s : ℚ) : ℤ :=
  let m := ratLog10Sq s
  if m % 2 = 0 then -m / 2 else -(m + 1) / 2

/-- risk_manager.py:39-41: the decimal precision used by
`round_step_size`, clamped to be nonnegative. -/
def pyPrecision (s : ℚ) : ℕ := (pyRoundNegLog10 s).toNat

/-- `round_step_size` (risk_manager.py:34-48): floor the quantity at
`precision = round(-log10 step_size)` decimal digits, then clamp the
result up so it is at least one full step. -/
def round_step_size (quantity step_size : ℚ) : ℚ :=
  if step_size = 0 then quantity
  else
    let precision := pyPrecision step_size
    let rounded := (⌊quantity * 10 ^ precision⌋ : ℚ) / 10 ^ precision
    if rounded < step_size then step_size else rounded

/-- The greedy maximal-fill probing loop of
`RiskManager.calculate_position_size` (risk_manager.py:107-115): while the
margin of `quantity + step_size` stays within `trade_amount`, accept the
increment.  Returns the final quantity together with the number of
executed iterations; `fuel` bounds the iterations that may run. -/
def probe (trade_amount LEVERAGE price step_size : ℚ) : ℚ → ℕ → ℚ × ℕ
  | quantity, 0 => (quantity, 0)
  | quantity, fuel+1 =>
    if (quantity + step_size) * price / LEVERAGE ≤ trade_amount then
      let r := probe trade_amount LEVERAGE price step_size (quantity + step_size) fuel
      (r.1, r.2 + 1)
    else (quantity, 0)

/-- The minimum-notional bump loop (risk_manager.py:129-130): add steps
until the notional value reaches `min_notional`. -/
def bumpNotional (price min_notional step_size : ℚ) : ℚ → ℕ → ℚ
  | quantity, 0 => quantity
  | quantity, fuel+1 =>
    if quantity * price < min_notional then
      bumpNotional price min_notional step_size (quantity + step_size) fuel
    else quantity

/-- The symbol metadata returned by the exchange-metadata collaborator
(`binance_client.get_symbol_info`), as read by the risk manager. -/
structure SymbolInfo where
  quantity_precision : ℕ
  min_qty : Option ℚ
  min_notional : ℚ
  price_precision : ℤ
deriving Repr, DecidableEq

/-- `RiskManager.calculate_position_size` (risk_manager.py:58-155) with
the collaborator reads (`balance`, `symbol_info`) and the configuration
constants (`LEVERAGE`, `FIXED_TRADE_PERCENTAGE`) passed explicitly, and
the two `while` loops given fuel.  The unused read of
`quantity_precision` (line 100) is dropped. -/
def calculate_position_size (LEVERAGE FIXED_TRADE_PERCENTAGE : ℚ)
    (balance price : ℚ) (symbol_info : Option SymbolInfo)
    (fuel1 fuel2 : ℕ) : ℚ :=
  if balance ≤ 0 then 0
  else match symbol_info with
  | none => 0
  | some si =>
    let trade_amount := balance * FIXED_TRADE_PERCENTAGE
    let max_quantity := trade_amount * LEVERAGE / price
    let step_size := get_step_size si.min_qty
    let quantity :=
      (probe trade_amount LEVERAGE price step_size
        (round_step_size max_quantity step_size) fuel1).1
    if quantity * price < si.min_notional then
      let min_quantity := bumpNotional price si.min_notional step_size
        (round_step_size (si.min_notional / price) step_size) fuel2
      if min_quantity * price / LEVERAGE ≤ trade_amount then
        if min_quantity ≤ 0 then 0 else min_quantity
      else 0
    else
      if quantity ≤ 0 then 0 else quantity

section PrecisionLemmas

lemma flog10F_spec : ∀ (fuel a b : ℕ), 0 < b → b ≤ a → a < b * 10 ^ fuel →
    b * 10 ^ flog10F fuel a b ≤ a ∧ a < b * 10 ^ (flog10F fuel a b + 1) := by
  intro fuel
  induction fuel with
  | zero => intro a b hb hba hf; simp only [pow_zero, mul_one] at hf; omega
  | succ n ih =>
    intro a b hb hba hf
    simp only [flog10F]
    by_cases h : b * 10 ≤ a
    · simp only [h, if_true]
      have hf' : a < b * 10 * 10 ^ n := by
        have : b * 10 ^ (n + 1) = b * 10 * 10 ^ n := by ring
        omega
      have := ih a (b * 10) (by omega) h hf'
      constructor
      · have e : b * 10 ^ (flog10F n a (b * 10) + 1) = b * 10 * 10 ^ flog10F n a (b * 10) := by
          ring
        omega
      · have e : b * 10 ^ (flog10F n a (b * 10) + 1 + 1) =
            b * 10 * 10 ^ (flog10F n a (b * 10) + 1) := by ring
        omega
    · simp only [h, if_false]
      constructor
      · simpa using hba
      · simpa [pow_one] using (by omega : a < b * 10)

lemma clog10F_spec : ∀ (fuel b a : ℕ), 0 < a → b ≤ a * 10 ^ fuel →
    b ≤ a * 10 ^ clog10F fuel b a ∧
      (0 < clog10F fuel b a → a * 10 ^ (clog10F fuel b a - 1) < b) := by
  intro fuel
  induction fuel with
  | zero => intro b a ha hf; simp only [pow_zero, mul_one] at hf; simp [clog10F]; omega
  | succ n ih =>
    intro b a ha hf
    simp only [clog10F]
    by_cases h : b ≤ a
    · simp only [h, if_true]
      constructor
      · simpa using h
      · intro hc; omega
    · simp only [h, if_false]
      have hf' : b ≤ a * 10 * 10 ^ n := by
        have : a * 10 ^ (n + 1) = a * 10 * 10 ^ n := by ring
        omega
      have := ih b (a * 10) (by omega) hf'
      constructor
      · have e : a * 10 ^ (clog10F n b (a * 10) + 1) = a * 10 * 10 ^ clog10F n b (a * 10) := by
          ring
        omega
      · intro _
        rcases Nat.eq_zero_or_pos (clog10F n b (a * 10)) with h0 | hpos
        · simp [h0]; omega
        · have h2 := this.2 hpos
          obtain ⟨k, hk⟩ : ∃ k, clog10F n b (a * 10) = k + 1 :=
            ⟨clog10F n b (a * 10) - 1, (Nat.succ_pred_eq_of_pos hpos).symm⟩
          rw [hk] at h2 ⊢
          have e : a * 10 ^ (k + 1 + 1 - 1) = a * 10 * 10 ^ (k + 1 - 1) := by
            simp only [Nat.add_sub_cancel]
            ring
          omega

lemma sq_eq_natAbs_div (s : ℚ) :
    s ^ 2 = ((s.num.natAbs ^ 2 : ℕ) : ℚ) / ((s.den ^ 2 : ℕ) : ℚ) := by
  have hden : ((s.den : ℚ)) ≠ 0 := by
    exact_mod_cast s.pos.ne'
  have h1 : ((s.num.natAbs ^ 2 : ℕ) : ℚ) = (s.num : ℚ) ^ 2 := by
    push_cast [Nat.cast_natAbs]
    exact sq_abs _
  have h2 : ((s.den ^ 2 : ℕ) : ℚ) = (s.den : ℚ) ^ 2 := by push_cast; ring
  have key : s * (s.den : ℚ) = (s.num : ℚ) := by
    nth_rewrite 1 [← s.num_div_den]
    exact div_mul_cancel₀ _ hden
  rw [h1, h2, eq_div_iff (pow_ne_zero 2 hden), ← key]
  ring

lemma ratLog10Sq_spec (s : ℚ) (hs : s ≠ 0) :
    (10 : ℚ) ^ ratLog10Sq s ≤ s ^ 2 ∧ s ^ 2 < (10 : ℚ) ^ (ratLog10Sq s + 1) := by
  have hnum : s.num ≠ 0 := Rat.num_ne_zero.mpr hs
  have ha : 0 < s.num.natAbs ^ 2 :=
    pow_pos (Nat.pos_of_ne_zero (Int.natAbs_ne_zero.mpr hnum)) 2
  have hb : 0 < s.den ^ 2 := pow_pos s.pos 2
  set a := s.num.natAbs ^ 2
  set b := s.den ^ 2
  have hsq : s ^ 2 = (a : ℚ) / (b : ℚ) := sq_eq_natAbs_div s
  have hbq : (0 : ℚ) < (b : ℚ) := by exact_mod_cast hb
  rw [ratLog10Sq]
  by_cases hba : b ≤ a
  · simp only [hba, if_true]
    obtain ⟨h1, h2⟩ := flog10F_spec (a + b) a b hb hba
      (lt_of_lt_of_le (Nat.lt_pow_self (by norm_num) a)
        (le_trans (Nat.pow_le_pow_right (by norm_num) (by omega))
          (Nat.le_mul_of_pos_left _ hb)))
    constructor
    · rw [hsq, zpow_natCast, le_div_iff₀ hbq]
      calc (10 : ℚ) ^ flog10F (a + b) a b * b
          = ((b * 10 ^ flog10F (a + b) a b : ℕ) : ℚ) := by push_cast; ring
        _ ≤ (a : ℚ) := by exact_mod_cast h1
    · rw [hsq, div_lt_iff₀ hbq]
      have he : ((flog10F (a + b) a b : ℤ) + 1) = ((flog10F (a + b) a b + 1 : ℕ) : ℤ) := by
        push_cast; ring
      rw [he, zpow_natCast]
      calc (a : ℚ) < ((b * 10 ^ (flog10F (a + b) a b + 1) : ℕ) : ℚ) := by exact_mod_cast h2
        _ = (10 : ℚ) ^ (flog10F (a + b) a b + 1) * b := by push_cast; ring
  · simp only [hba, if_false]
    push_neg at hba
    obtain ⟨h1, h2⟩ := clog10F_spec (a + b) b a ha
      (le_trans (le_of_lt (Nat.lt_pow_self (by norm_num) b))
        (le_trans (Nat.pow_le_pow_right (by norm_num) (by omega))
          (Nat.le_mul_of_pos_left _ ha)))
    set c := clog10F (a + b) b a with hc_def
    have hcpos : 0 < c := by
      rcases Nat.eq_zero_or_pos c with h0 | hp
      · exfalso
        rw [h0] at h1
        simp at h1
        omega
      · exact hp
    have h2' : a * 10 ^ (c - 1) < b := h2 hcpos
    have hten : (0 : ℚ) < (10 : ℚ) ^ (c : ℕ) := by positivity
    constructor
    · rw [hsq, zpow_neg, zpow_natCast, le_div_iff₀ hbq, inv_mul_eq_div, div_le_iff₀ hten]
      calc ((b : ℚ)) ≤ ((a * 10 ^ c : ℕ) : ℚ) := by exact_mod_cast h1
        _ = (a : ℚ) * 10 ^ (c : ℕ) := by push_cast; ring
    · have hexp : (-(c : ℤ) + 1) = -((c - 1 : ℕ) : ℤ) := by omega
      rw [hsq, hexp, zpow_neg, zpow_natCast, div_lt_iff₀ hbq]
      have htenc : (0 : ℚ) < (10 : ℚ) ^ ((c - 1 : ℕ)) := by positivity
      rw [inv_mul_eq_div, lt_div_iff₀ htenc]
      calc (a : ℚ) * 10 ^ (c - 1 : ℕ) = ((a * 10 ^ (c - 1) : ℕ) : ℚ) := by push_cast; ring
        _ < (b : ℚ) := by exact_mod_cast h2'

lemma ratLog10Sq_unique (s : ℚ) (hs : s ≠ 0) (m : ℤ)
    (h1 : (10 : ℚ) ^ m ≤ s ^ 2) (h2 : s ^ 2 < (10 : ℚ) ^ (m + 1)) :
    ratLog10Sq s = m := by
  obtain ⟨g1, g2⟩ := ratLog10Sq_spec s hs
  by_contra hne
  rcases lt_or_gt_of_ne hne with hlt | hgt
  · have : (10 : ℚ) ^ (ratLog10Sq s + 1) ≤ (10 : ℚ) ^ m :=
      zpow_le_zpow_right₀ (by norm_num) (by omega)
    linarith
  · have : (10 : ℚ) ^ (m + 1) ≤ (10 : ℚ) ^ ratLog10Sq s :=
      zpow_le_zpow_right₀ (by norm_num) (by omega)
    linarith

/-- The characterisation that justifies reading `pyRoundNegLog10` as
`round(-log10 s)`: the square of `s` lies within one decade on either
side of `10^(-2k)`. -/
lemma pyRoundNegLog10_spec (s : ℚ) (hs : s ≠ 0) :
    (10 : ℚ) ^ (-2 * pyRoundNegLog10 s - 1) ≤ s ^ 2 ∧
      s ^ 2 ≤ (10 : ℚ) ^ (-2 * pyRoundNegLog10 s + 1) := by
  obtain ⟨g1, g2⟩ := ratLog10Sq_spec s hs
  rw [pyRoundNegLog10]
  set m := ratLog10Sq s with hm
  by_cases hpar : m % 2 = 0
  · simp only [hpar, if_true]
    have he : -2 * (-m / 2) = m := by omega
    rw [he]
    constructor
    · calc (10 : ℚ) ^ (m - 1) ≤ (10 : ℚ) ^ m := zpow_le_zpow_right₀ (by norm_num) (by omega)
        _ ≤ s ^ 2 := g1
    · exact le_of_lt (lt_of_lt_of_le g2 (zpow_le_zpow_right₀ (by norm_num) (by omega)))
  · simp only [hpar, if_false]
    have he : -2 * (-(m + 1) / 2) = m + 1 := by omega
    rw [he]
    constructor
    · calc (10 : ℚ) ^ (m + 1 - 1) = (10 : ℚ) ^ m := by norm_num
        _ ≤ s ^ 2 := g1
    · exact le_of_lt (lt_of_lt_of_le g2 (zpow_le_zpow_right₀ (by norm_num) (by omega)))

lemma pyPrecision_pow (k : ℕ) : pyPrecision ((10 : ℚ) ^ (-(k : ℤ))) = k := by
  have hs : ((10 : ℚ) ^ (-(k : ℤ))) ≠ 0 := by positivity
  have hsq : ((10 : ℚ) ^ (-(k : ℤ))) ^ 2 = (10 : ℚ) ^ (-(2 * k : ℤ)) := by
    rw [← zpow_natCast (((10 : ℚ) ^ (-(k : ℤ)))) 2, ← zpow_mul]
    norm_num
    ring_nf
  have hlog : ratLog10Sq ((10 : ℚ) ^ (-(k : ℤ))) = -(2 * k : ℤ) := by
    apply ratLog10Sq_unique _ hs
    · rw [hsq]
    · rw [hsq]
      exact zpow_lt_zpow_right₀ (by norm_num) (by omega)
  rw [pyPrecision, pyRoundNegLog10]
  rw [hlog]
  have h2 : (-(2 * (k : ℤ))) % 2 = 0 := by omega
  simp only [h2, if_true]
  have h3 : -(-(2 * (k : ℤ))) / 2 = k := by omega
  rw [h3]
  simp

/-- `pyPrecision` at an even-decade step size, for evaluating concrete
instances. -/
lemma pyPrecision_of_bounds (s : ℚ) (k : ℕ) (hs : s ≠ 0)
    (h1 : (10 : ℚ) ^ (-(2 * k : ℤ)) ≤ s ^ 2)
    (h2 : s ^ 2 < (10 : ℚ) ^ (-(2 * k : ℤ) + 1)) :
    pyPrecision s = k := by
  have hlog : ratLog10Sq s = -(2 * k : ℤ) := ratLog10Sq_unique s hs _ h1 h2
  rw [pyPrecision, pyRoundNegLog10, hlog]
  have hp : (-(2 * (k : ℤ))) % 2 = 0 := by omega
  simp only [hp, if_true]
  have h3 : -(-(2 * (k : ℤ))) / 2 = k := by omega
  rw [h3]
  simp

end PrecisionLemmas

section RoundStepLemmas

lemma round_step_size_ge (quantity step_size : ℚ) (hs : step_size ≠ 0) :
    step_size ≤ round_step_size quantity step_size := by
  rw [round_step_size]
  simp only [hs, if_false]
  split
  · exact le_refl _
  · next h => exact le_of_not_lt h

lemma round_step_size_le (quantity step_size : ℚ) (h : step_size ≤ quantity) :
    round_step_size quantity step_size ≤ quantity := by
  rw [round_step_size]
  by_cases h0 : step_size = 0
  · simp [h0]
  · simp only [h0, if_false]
    have hg : (0 : ℚ) < 10 ^ pyPrecision step_size := by positivity
    have hr : (⌊quantity * 10 ^ pyPrecision step_size⌋ : ℚ) / 10 ^ pyPrecision step_size
        ≤ quantity := by
      rw [div_le_iff₀ hg]
      exact Int.floor_le _
    split
    · exact h
    · exact hr

lemma margin_le_iff (trade_amount LEVERAGE price x : ℚ)
    (hp : 0 < price) (hL : 0 < LEVERAGE) :
    x * price / LEVERAGE ≤ trade_amount ↔ x ≤ trade_amount * LEVERAGE / price := by
  rw [div_le_iff₀ hL, le_div_iff₀ hp]

end RoundStepLemmas

section ProbeLemmas

lemma probe_fst_eq (trade_amount LEVERAGE price step_size : ℚ) :
    ∀ (fuel : ℕ) (q : ℚ),
      (probe trade_amount LEVERAGE price step_size q fuel).1 =
        q + ((probe trade_amount LEVERAGE price step_size q fuel).2 : ℚ) * step_size := by
  intro fuel
  induction fuel with
  | zero => intro q; simp [probe]
  | succ n ih =>
    intro q
    rw [probe]
    split
    · simp only
      rw [ih (q + step_size)]
      push_cast
      ring
    · simp

lemma probe_le (trade_amount LEVERAGE price step_size : ℚ)
    (hp : 0 < price) (hL : 0 < LEVERAGE) :
    ∀ (fuel : ℕ) (q : ℚ), q ≤ trade_amount * LEVERAGE / price →
      (probe trade_amount LEVERAGE price step_size q fuel).1 ≤
        trade_amount * LEVERAGE / price := by
  intro fuel
  induction fuel with
  | zero => intro q hq; simpa [probe] using hq
  | succ n ih =>
    intro q hq
    rw [probe]
    split
    · next hguard =>
      simp only
      exact ih (q + step_size)
        ((margin_le_iff trade_amount LEVERAGE price _ hp hL).mp hguard)
    · simpa using hq

lemma probe_count (trade_amount LEVERAGE price step_size : ℚ)
    (hp : 0 < price) (hL : 0 < LEVERAGE) :
    ∀ (fuel : ℕ) (q : ℚ),
      (probe trade_amount LEVERAGE price step_size q fuel).2 = 0 ∨
        q + ((probe trade_amount LEVERAGE price step_size q fuel).2 : ℚ) * step_size ≤
          trade_amount * LEVERAGE / price := by
  intro fuel
  induction fuel with
  | zero => intro q; left; simp [probe]
  | succ n ih =>
    intro q
    rw [probe]
    split
    · next hguard =>
      right
      simp only
      have hle := (margin_le_iff trade_amount LEVERAGE price _ hp hL).mp hguard
      rcases ih (q + step_size) with h0 | hstep
      · rw [h0]
        push_cast
        linarith
      · push_cast
        linarith
    · left; simp

lemma probe_congr (trade_amount LEVERAGE price step_size : ℚ)
    (hp : 0 < price) (hL : 0 < LEVERAGE) (hs : 0 < step_size) :
    ∀ (f1 : ℕ) (q : ℚ) (f2 : ℕ),
      trade_amount * LEVERAGE / price - q ≤ (f1 : ℚ) * step_size →
      trade_amount * LEVERAGE / price - q ≤ (f2 : ℚ) * step_size →
      probe trade_amount LEVERAGE price step_size q f1 =
        probe trade_amount LEVERAGE price step_size q f2 := by
  intro f1
  induction f1 with
  | zero =>
    intro q f2 h1 h2
    have hng : ¬ (q + step_size) * price / LEVERAGE ≤ trade_amount := by
      rw [margin_le_iff _ _ _ _ hp hL]
      intro hcon
      simp only [Nat.cast_zero, zero_mul] at h1
      linarith
    cases f2 with
    | zero => rfl
    | succ m => simp only [probe, if_neg hng]
  | succ n ih =>
    intro q f2 h1 h2
    cases f2 with
    | zero =>
      have hng : ¬ (q + step_size) * price / LEVERAGE ≤ trade_amount := by
        rw [margin_le_iff _ _ _ _ hp hL]
        intro hcon
        simp only [Nat.cast_zero, zero_mul] at h2
        linarith
      simp only [probe, if_neg hng]
    | succ m =>
      rw [probe, probe]
      by_cases hguard : (q + step_size) * price / LEVERAGE ≤ trade_amount
      · rw [if_pos hguard, if_pos hguard]
        have h1' : trade_amount * LEVERAGE / price - (q + step_size) ≤ (n : ℚ) * step_size := by
          push_cast at h1
          linarith
        have h2' : trade_amount * LEVERAGE / price - (q + step_size) ≤ (m : ℚ) * step_size := by
          push_cast at h2
          linarith
        rw [ih (q + step_size) m h1' h2']
      · rw [if_neg hguard, if_neg hguard]

lemma bumpNotional_exists (price min_notional step_size : ℚ) :
    ∀ (fuel : ℕ) (q : ℚ), ∃ j : ℕ,
      bumpNotional price min_notional step_size q fuel = q + (j : ℚ) * step_size := by
  intro fuel
  induction fuel with
  | zero => intro q; exact ⟨0, by simp [bumpNotional]⟩
  | succ n ih =>
    intro q
    rw [bumpNotional]
    split
    · obtain ⟨j, hj⟩ := ih (q + step_size)
      exact ⟨j + 1, by rw [hj]; push_cast; ring⟩
    · exact ⟨0, by simp⟩

end ProbeLemmas

section ConcreteEvaluations

lemma get_step_size_pos (min_qty_str : Option ℚ)
    (h : min_qty_str = none ∨ ∃ x, min_qty_str = some x ∧ 0 ≤ x) :
    0 < get_step_size min_qty_str := by
  rcases h with h | ⟨x, hx, hx0⟩
  · rw [h, get_step_size]; norm_num
  · rw [hx, get_step_size]
    by_cases h0 : x = 0
    · simp only [h0, if_true]; norm_num
    · simp only [h0, if_false]
      exact lt_of_le_of_ne hx0 (Ne.symm h0)

lemma pyPrecision_tenth : pyPrecision (1/10 : ℚ) = 1 := by
  have h := pyPrecision_pow 1
  norm_num at h
  exact h

lemma pyPrecision_thousandth : pyPrecision (1/1000 : ℚ) = 3 := by
  have h := pyPrecision_pow 3
  norm_num at h
  exact h

lemma pyPrecision_three_thousandths : pyPrecision (3/1000 : ℚ) = 3 := by
  apply pyPrecision_of_bounds _ 3 (by norm_num) <;> norm_num

end ConcreteEvaluations

section RiskManagerClaims

/-- C1 counterexample: balance 1, fixed fraction 1/5, leverage 20, price
100, step size 0.1, min notional 5.  The budget (0.2) affords less than
one step of margin (0.5), so the clamp inside `round_step_size` raises
the baseline quantity to one full step and the function returns 0.1,
whose margin 0.1*100/20 = 0.5 exceeds the budget 1*(1/5) = 0.2.  This
refutes the claim that `q * p / L ≤ b * f` holds for every call with
positive balance and price. -/
theorem c1_counterexample :
    calculate_position_size 20 (1/5) 1 100 (some ⟨3, some (1/10), 5, 2⟩) 9 9 = 1/10 ∧
      ¬ ((1/10 : ℚ) * 100 / 20 ≤ 1 * (1/5)) := by
  constructor
  · norm_num [calculate_position_size, get_step_size, round_step_size,
      pyPrecision_tenth, probe, bumpNotional]
  · norm_num

/-- C1 (amended): for every call to `calculate_position_size` with
positive balance, price, leverage and trade fraction, and whose budget
affords at least one step of margin
(`stepSize * price / leverage ≤ balance * fixedTradeFraction`), the
returned quantity `q` satisfies `q * price / leverage ≤
balance * fixedTradeFraction`, including after the greedy step-size
probing and the minimum-notional adjustment.  (Without the step-budget
proviso the clamp in `round_step_size` can exceed the budget, see
`c1_counterexample`.) -/
theorem c1_margin_never_exceeds_budget
    (LEVERAGE FIXED_TRADE_PERCENTAGE balance price : ℚ) (si : SymbolInfo)
    (fuel1 fuel2 : ℕ)
    (hp : 0 < price) (hL : 0 < LEVERAGE) (hb : 0 < balance)
    (hF : 0 < FIXED_TRADE_PERCENTAGE)
    (hstep : get_step_size si.min_qty * price / LEVERAGE ≤
      balance * FIXED_TRADE_PERCENTAGE) :
    calculate_position_size LEVERAGE FIXED_TRADE_PERCENTAGE balance price
        (some si) fuel1 fuel2 * price / LEVERAGE ≤
      balance * FIXED_TRADE_PERCENTAGE := by
  have ht0 : (0:ℚ) < balance * FIXED_TRADE_PERCENTAGE := mul_pos hb hF
  have hsmax : get_step_size si.min_qty ≤
      balance * FIXED_TRADE_PERCENTAGE * LEVERAGE / price :=
    (margin_le_iff _ _ _ _ hp hL).mp hstep
  simp only [calculate_position_size]
  rw [if_neg (not_le.mpr hb)]
  split_ifs with h1 h2 h3 h4
  · rw [zero_mul, zero_div]; linarith
  · exact h2
  · rw [zero_mul, zero_div]; linarith
  · rw [zero_mul, zero_div]; linarith
  · rw [margin_le_iff _ _ _ _ hp hL]
    exact probe_le _ _ _ _ hp hL _ _ (round_step_size_le _ _ hsmax)

/-- C1 witness: the spec's own example (balance 50, fraction 0.40,
leverage 25, price 100, step 0.001, min notional 5) satisfies the
step-budget proviso, and the margin bound follows by the theorem. -/
theorem c1_margin_never_exceeds_budget_witness :
    (0:ℚ) < 100 ∧ (0:ℚ) < 25 ∧ (0:ℚ) < 50 ∧ (0:ℚ) < 2/5 ∧
      get_step_size (SymbolInfo.mk 3 (some (1/1000)) 5 2).min_qty * 100 / 25 ≤ 50 * (2/5) ∧
      calculate_position_size 25 (2/5) 50 100
        (some (SymbolInfo.mk 3 (some (1/1000)) 5 2)) 9 9 * 100 / 25 ≤ 50 * (2/5) :=
  ⟨by norm_num, by norm_num, by norm_num, by norm_num,
    by norm_num [get_step_size],
    c1_margin_never_exceeds_budget 25 (2/5) 50 100 _ 9 9 (by norm_num) (by norm_num)
      (by norm_num) (by norm_num) (by norm_num [get_step_size])⟩

/-- C3 counterexample: with the non-power-of-ten step size 0.003
(balance 0.01, price 1, leverage 1, fraction 1), `round_step_size`
rounds to the 0.001 decimal grid and returns 0.01, which the probing
loop keeps; 0.01 is not an integer multiple of 0.003, refuting the
claim for step sizes that are not powers of ten. -/
theorem c3_counterexample :
    calculate_position_size 1 1 (1/100) 1 (some ⟨3, some (3/1000), 0, 2⟩) 9 9 = 1/100 ∧
      get_step_size (some (3/1000 : ℚ)) = 3/1000 ∧
      ¬ ∃ n : ℤ, (1/100 : ℚ) = (n : ℚ) * (3/1000) := by
  refine ⟨?_, by norm_num [get_step_size], ?_⟩
  · norm_num [calculate_position_size, get_step_size, round_step_size,
      pyPrecision_three_thousandths, probe, bumpNotional]
  · rintro ⟨n, hn⟩
    have h3 : (3:ℚ) * (n:ℚ) = 10 := by linarith
    have h3' : (3:ℤ) * n = 10 := by exact_mod_cast h3
    omega

/-- C3 (amended): whenever the effective step size is a (nonpositive)
power of ten `10^-k` — which includes the 0.001 default — the quantity
returned by `calculate_position_size` is an integer multiple of the step
size (0 included).  For non-power-of-ten step sizes this fails, see
`c3_counterexample`. -/
theorem c3_quantity_step_multiple
    (LEVERAGE FIXED_TRADE_PERCENTAGE balance price : ℚ) (si : SymbolInfo)
    (fuel1 fuel2 : ℕ) (k : ℕ)
    (hstep : get_step_size si.min_qty = (10:ℚ) ^ (-(k : ℤ))) :
    ∃ n : ℤ, calculate_position_size LEVERAGE FIXED_TRADE_PERCENTAGE balance price
        (some si) fuel1 fuel2 = (n : ℚ) * get_step_size si.min_qty := by
  set s := get_step_size si.min_qty with hs_def
  have hs0 : s ≠ 0 := by rw [hstep]; positivity
  have hgrid : ∀ q : ℚ, ∃ n : ℤ, round_step_size q s = (n : ℚ) * s := by
    intro q
    rw [round_step_size]
    simp only [hs0, if_false]
    split
    · exact ⟨1, by rw [Int.cast_one, one_mul]⟩
    · refine ⟨⌊q * 10 ^ pyPrecision s⌋, ?_⟩
      rw [hstep, pyPrecision_pow k]
      rw [zpow_neg, zpow_natCast]
      rw [div_eq_mul_inv]
  have hstepmul : ∀ (q : ℚ) (n : ℤ), q = (n : ℚ) * s → ∃ m : ℤ, q + s = (m : ℚ) * s := by
    intro q n hq
    exact ⟨n + 1, by rw [hq]; push_cast; ring⟩
  simp only [calculate_position_size]
  split_ifs with h0 h1 h2 h3 h4
  · exact ⟨0, by rw [Int.cast_zero, zero_mul]⟩
  · exact ⟨0, by rw [Int.cast_zero, zero_mul]⟩
  · -- adopted minimum-notional quantity
    obtain ⟨n0, hn0⟩ := hgrid (si.min_notional / price)
    obtain ⟨j, hj⟩ := bumpNotional_exists price si.min_notional s fuel2
      (round_step_size (si.min_notional / price) s)
    exact ⟨n0 + j, by rw [hj, hn0]; push_cast; ring⟩
  · exact ⟨0, by rw [Int.cast_zero, zero_mul]⟩
  · exact ⟨0, by rw [Int.cast_zero, zero_mul]⟩
  · -- probed quantity
    obtain ⟨n0, hn0⟩ := hgrid (balance * FIXED_TRADE_PERCENTAGE * LEVERAGE / price)
    refine ⟨n0 + ((probe (balance * FIXED_TRADE_PERCENTAGE) LEVERAGE price s
      (round_step_size (balance * FIXED_TRADE_PERCENTAGE * LEVERAGE / price) s) fuel1).2 : ℤ), ?_⟩
    rw [probe_fst_eq, hn0]
    push_cast
    ring

/-- C3 witness: with step size 0.1 = 10^-1 (leverage 1, fraction 1,
balance 1, price 1) the returned quantity is an integer multiple of the
step. -/
theorem c3_quantity_step_multiple_witness :
    get_step_size (some (1/10 : ℚ)) = (10:ℚ) ^ (-(1 : ℤ)) ∧
      ∃ n : ℤ, calculate_position_size 1 1 1 1 (some (SymbolInfo.mk 3 (some (1/10)) 0 2)) 9 9 =
        (n : ℚ) * get_step_size (SymbolInfo.mk 3 (some (1/10)) 0 2).min_qty :=
  ⟨by norm_num [get_step_size],
    c3_quantity_step_multiple 1 1 1 1 (SymbolInfo.mk 3 (some (1/10)) 0 2) 9 9 1
      (by norm_num [get_step_size])⟩

/-- C8: for every positive price and leverage, nonnegative budget, and
every exchange min-quantity field (an unparsable string or a zero being
replaced by the 0.001 default, and a parsed value being nonnegative),
the effective step size is positive, the maximal-fill probing loop of
`calculate_position_size` performs at most `maxQty / stepSize`
iterations, and its result is stable once the fuel reaches
`⌈maxQty / stepSize⌉` (the loop terminates there). -/
theorem c8_probe_terminates
    (trade_amount LEVERAGE price : ℚ) (min_qty_str : Option ℚ)
    (hp : 0 < price) (hL : 0 < LEVERAGE) (ht : 0 ≤ trade_amount)
    (hmq : min_qty_str = none ∨ ∃ x, min_qty_str = some x ∧ 0 ≤ x) :
    0 < get_step_size min_qty_str ∧
    (∀ fuel : ℕ,
      ((probe trade_amount LEVERAGE price (get_step_size min_qty_str)
          (round_step_size (trade_amount * LEVERAGE / price) (get_step_size min_qty_str))
          fuel).2 : ℚ) ≤
        (trade_amount * LEVERAGE / price) / get_step_size min_qty_str) ∧
    (∀ f1 f2 : ℕ,
      Nat.ceil ((trade_amount * LEVERAGE / price) / get_step_size min_qty_str) ≤ f1 →
      Nat.ceil ((trade_amount * LEVERAGE / price) / get_step_size min_qty_str) ≤ f2 →
      probe trade_amount LEVERAGE price (get_step_size min_qty_str)
          (round_step_size (trade_amount * LEVERAGE / price) (get_step_size min_qty_str)) f1 =
        probe trade_amount LEVERAGE price (get_step_size min_qty_str)
          (round_step_size (trade_amount * LEVERAGE / price) (get_step_size min_qty_str)) f2) := by
  have hs : 0 < get_step_size min_qty_str := get_step_size_pos min_qty_str hmq
  set s := get_step_size min_qty_str with hs_def
  set maxq := trade_amount * LEVERAGE / price with hmaxq
  have hmax0 : 0 ≤ maxq := by positivity
  have hq0 : s ≤ round_step_size maxq s := round_step_size_ge maxq s hs.ne'
  have hq0pos : 0 < round_step_size maxq s := lt_of_lt_of_le hs hq0
  refine ⟨hs, ?_, ?_⟩
  · intro fuel
    rcases probe_count trade_amount LEVERAGE price s hp hL fuel (round_step_size maxq s)
      with h0 | hle
    · rw [h0]
      push_cast
      positivity
    · rw [le_div_iff₀ hs]
      nlinarith [hq0pos]
  · intro f1 f2 hf1 hf2
    have hceil : maxq ≤ (Nat.ceil (maxq / s) : ℚ) * s := by
      have := Nat.le_ceil (maxq / s)
      rw [div_le_iff₀ hs] at this
      exact this
    have hb1 : maxq - round_step_size maxq s ≤ (f1 : ℚ) * s := by
      have hf1' : (Nat.ceil (maxq / s) : ℚ) * s ≤ (f1 : ℚ) * s := by
        have : ((Nat.ceil (maxq / s) : ℕ) : ℚ) ≤ (f1 : ℚ) := by exact_mod_cast hf1
        exact mul_le_mul_of_nonneg_right this hs.le
      nlinarith [hq0pos]
    have hb2 : maxq - round_step_size maxq s ≤ (f2 : ℚ) * s := by
      have hf2' : (Nat.ceil (maxq / s) : ℚ) * s ≤ (f2 : ℚ) * s := by
        have : ((Nat.ceil (maxq / s) : ℕ) : ℚ) ≤ (f2 : ℚ) := by exact_mod_cast hf2
        exact mul_le_mul_of_nonneg_right this hs.le
      nlinarith [hq0pos]
    exact probe_congr trade_amount LEVERAGE price s hp hL hs f1 _ f2 hb1 hb2

/-- C8 witness: budget 0.2, leverage 20, price 100, step 0.1; the
iteration bound and the stabilisation at fuel 2 and 3 follow by the
theorem. -/
theorem c8_probe_terminates_witness :
    ((probe (1/5) 20 100 (get_step_size (some (1/10)))
        (round_step_size ((1/5) * 20 / 100) (get_step_size (some (1/10)))) 7).2 : ℚ) ≤
      ((1/5) * 20 / 100) / get_step_size (some (1/10)) ∧
    probe (1/5) 20 100 (get_step_size (some (1/10)))
        (round_step_size ((1/5) * 20 / 100) (get_step_size (some (1/10)))) 2 =
      probe (1/5) 20 100 (get_step_size (some (1/10)))
        (round_step_size ((1/5) * 20 / 100) (get_step_size (some (1/10)))) 3 := by
  have h := c8_probe_terminates (1/5) 20 100 (some (1/10)) (by norm_num) (by norm_num)
    (by norm_num) (Or.inr ⟨1/10, rfl, by norm_num⟩)
  refine ⟨h.2.1 7, h.2.2 2 3 ?_ ?_⟩
  · rw [Nat.ceil_le]
    norm_num [get_step_size]
  · rw [Nat.ceil_le]
    norm_num [get_step_size]

/-- C9: for every input quantity (zero and sub-step quantities included)
and every positive step size, `round_step_size` returns at least one
full step and in particular never returns 0, so the baseline quantity
entering position sizing is always at least one step even when the
budget affords less. -/
theorem c9_round_step_size_at_least_step (quantity step_size : ℚ)
    (h : 0 < step_size) :
    step_size ≤ round_step_size quantity step_size ∧
      round_step_size quantity step_size ≠ 0 := by
  have hge := round_step_size_ge quantity step_size h.ne'
  exact ⟨hge, ne_of_gt (lt_of_lt_of_le h hge)⟩

/-- C9 witness: rounding the quantity 0 with step 0.001 yields at least
0.001 and is nonzero. -/
theorem c9_round_step_size_at_least_step_witness :
    (0:ℚ) < 1/1000 ∧ ((1/1000 : ℚ) ≤ round_step_size 0 (1/1000) ∧
      round_step_size 0 (1/1000) ≠ 0) :=
  ⟨by norm_num, c9_round_step_size_at_least_step 0 (1/1000) (by norm_num)⟩

end RiskManagerClaims

/-- Position side: the source compares `side == "BUY"` and treats every
other value as a short position, so two sides suffice. -/
inductive Side
  | buy
  | sell
deriving Repr, DecidableEq

/-- The order types recognised by the stop-loss lookup
(`'STOP_MARKET'`, `'STOP'`, anything else). -/
inductive OrderKind
  | stop_market
  | stop
  | other
deriving Repr, DecidableEq, BEq

/-- One entry of the open-orders list returned by the exchange
collaborator, with the fields read by `_get_current_stop_loss_price`.
Symbols are abstracted to naturals. -/
structure OpenOrder where
  type : OrderKind
  symbol : ℕ
  stopPrice : ℚ
deriving Repr, DecidableEq

/-- The position record returned by `get_position_info`, with the fields
read by `adjust_stop_loss_for_trailing`. -/
structure PositionInfo where
  symbol : ℕ
  position_amount : ℚ
  entry_price : ℚ
deriving Repr, DecidableEq

/-- Python's `round(x)` on a rational: round half to even (banker's
rounding). -/
def pyRoundInt (x : ℚ) : ℤ :=
  let f := ⌊x⌋
  if x - f < 1/2 then f
  else if x - f > 1/2 then f + 1
  else if Even f then f else f + 1

/-- Python's `round(x, n)`: banker's rounding at `n` decimal digits. -/
def pyRound (x : ℚ) (n : ℤ) : ℚ := (pyRoundInt (x * 10 ^ n) : ℚ) / 10 ^ n

/-- `RiskManager.calculate_stop_loss` (risk_manager.py:184-201). -/
def calculate_stop_loss (USE_STOP_LOSS : Bool) (STOP_LOSS_PCT : ℚ) (side : Side)
    (entry_price : ℚ) (symbol_info : Option SymbolInfo) : Option ℚ :=
  if USE_STOP_LOSS = false then none
  else
    let stop_price := match side with
      | .buy => entry_price * (1 - STOP_LOSS_PCT)
      | .sell => entry_price * (1 + STOP_LOSS_PCT)
    match symbol_info with
    | some si => some (pyRound stop_price si.price_precision)
    | none => some stop_price

/-- The order scan of `_get_current_stop_loss_price`
(risk_manager.py:263-269): the first `STOP_MARKET`/`STOP` order for the
symbol whose stop price is positive; any other order lets the loop
continue. -/
def find_stop_order (symbol : ℕ) : List OpenOrder → Option ℚ
  | [] => none
  | o :: rest =>
    if (o.type = OrderKind.stop_market ∨ o.type = OrderKind.stop) ∧
        o.symbol = symbol ∧ 0 < o.stopPrice
    then some o.stopPrice
    else find_stop_order symbol rest

/-- `RiskManager._get_current_stop_loss_price` (risk_manager.py:246-276):
return the stop price of the first matching open order, falling back to
the entry-derived stop. -/
def get_current_stop_loss_price (orders : List OpenOrder) (symbol : ℕ)
    (USE_STOP_LOSS : Bool) (STOP_LOSS_PCT : ℚ) (side : Side) (entry_price : ℚ)
    (symbol_info : Option SymbolInfo) : Option ℚ :=
  match find_stop_order symbol orders with
  | some stop_price => some stop_price
  | none => calculate_stop_loss USE_STOP_LOSS STOP_LOSS_PCT side entry_price symbol_info

/-- `RiskManager.adjust_stop_loss_for_trailing` (risk_manager.py:278-356).
The candidate stop is compared against the current stop *before* the
price-precision rounding, and the rounded value is returned.  A `None`
or `0.0` current stop skips the comparison (Python falsiness of
`current_stop`).  The profit-territory checks of lines 320-336 only log
and are dropped, as is the logging block of lines 344-354 (its
`f"{current_stop:.6f}"` format would raise on a `None` current stop;
that failure mode is outside this embedding and outside every claim). -/
def adjust_stop_loss_for_trailing (TRAILING_STOP : Bool) (TRAILING_STOP_PCT : ℚ)
    (USE_STOP_LOSS : Bool) (STOP_LOSS_PCT : ℚ) (symbol : ℕ) (side : Side)
    (current_price : ℚ) (position_info : Option PositionInfo)
    (orders : List OpenOrder) (symbol_info : Option SymbolInfo) : Option ℚ :=
  if TRAILING_STOP = false then none
  else match position_info with
  | none => none
  | some pi =>
    if |pi.position_amount| = 0 then none
    else if pi.symbol ≠ symbol then none
    else
      let entry_price := pi.entry_price
      let current_stop := get_current_stop_loss_price orders symbol USE_STOP_LOSS
        STOP_LOSS_PCT side entry_price symbol_info
      match side with
      | .buy =>
        let new_stop := current_price * (1 - TRAILING_STOP_PCT)
        let rounded := match symbol_info with
          | some si => pyRound new_stop si.price_precision
          | none => new_stop
        match current_stop with
        | some cs => if cs ≠ 0 ∧ new_stop ≤ cs then none else some rounded
        | none => some rounded
      | .sell =>
        let new_stop := current_price * (1 + TRAILING_STOP_PCT)
        let rounded := match symbol_info with
          | some si => pyRound new_stop si.price_precision
          | none => new_stop
        match current_stop with
        | some cs => if cs ≠ 0 ∧ cs ≤ new_stop then none else some rounded
        | none => some rounded

section PyRoundLemmas

lemma pyRoundInt_ge_floor (x : ℚ) : ⌊x⌋ ≤ pyRoundInt x := by
  rw [pyRoundInt]
  split_ifs <;> omega

lemma pyRoundInt_le_floor_add_one (x : ℚ) : pyRoundInt x ≤ ⌊x⌋ + 1 := by
  rw [pyRoundInt]
  split_ifs <;> omega

/-- If a grid point lies strictly below `x`, rounding `x` to the grid
stays at or above the grid point. -/
lemma pyRound_ge_of_lt (x : ℚ) (p : ℤ) (m : ℤ)
    (h : (m : ℚ) * (10:ℚ) ^ (-p) < x) :
    (m : ℚ) * (10:ℚ) ^ (-p) ≤ pyRound x p := by
  have hg : (0:ℚ) < (10:ℚ) ^ p := by positivity
  have hx : (m : ℚ) < x * 10 ^ p := by
    rw [zpow_neg] at h
    calc (m : ℚ) = (m : ℚ) * ((10:ℚ)^p)⁻¹ * (10:ℚ)^p := by field_simp
      _ < x * 10 ^ p := by
          exact mul_lt_mul_of_pos_right h hg
  have hfl : m ≤ ⌊x * 10 ^ p⌋ := Int.le_floor.mpr hx.le
  have hri : (m : ℚ) ≤ (pyRoundInt (x * 10 ^ p) : ℚ) := by
    exact_mod_cast le_trans hfl (pyRoundInt_ge_floor _)
  rw [pyRound, zpow_neg, mul_inv_le_iff₀ hg]
  calc (m : ℚ) ≤ (pyRoundInt (x * 10 ^ p) : ℚ) := hri
    _ = (pyRoundInt (x * 10 ^ p) : ℚ) / 10 ^ p * 10 ^ p := by field_simp

/-- If a grid point lies strictly above `x`, rounding `x` to the grid
stays at or below the grid point. -/
lemma pyRound_le_of_lt (x : ℚ) (p : ℤ) (m : ℤ)
    (h : x < (m : ℚ) * (10:ℚ) ^ (-p)) :
    pyRound x p ≤ (m : ℚ) * (10:ℚ) ^ (-p) := by
  have hg : (0:ℚ) < (10:ℚ) ^ p := by positivity
  have hx : x * 10 ^ p < (m : ℚ) := by
    rw [zpow_neg] at h
    calc x * 10 ^ p < (m : ℚ) * ((10:ℚ)^p)⁻¹ * (10:ℚ)^p := by
          exact mul_lt_mul_of_pos_right h hg
      _ = (m : ℚ) := by field_simp
  have hfl : ⌊x * 10 ^ p⌋ < m := Int.floor_lt.mpr hx
  have hri : (pyRoundInt (x * 10 ^ p) : ℚ) ≤ (m : ℚ) := by
    exact_mod_cast le_trans (pyRoundInt_le_floor_add_one _) (by omega)
  rw [pyRound, zpow_neg, le_mul_inv_iff₀ hg]
  calc (pyRoundInt (x * 10 ^ p) : ℚ) / 10 ^ p * 10 ^ p
      = (pyRoundInt (x * 10 ^ p) : ℚ) := by field_simp
    _ ≤ (m : ℚ) := hri

lemma pyRound_grid (x : ℚ) (p : ℤ) :
    ∃ m : ℤ, pyRound x p = (m : ℚ) * (10:ℚ) ^ (-p) := by
  exact ⟨pyRoundInt (x * 10 ^ p), by rw [pyRound, zpow_neg, div_eq_mul_inv]⟩

end PyRoundLemmas

section TrailingStopClaims

/-- C2 counterexample: long position on symbol 0 with an existing stop
order at 100, trailing percentage 0.1%, current price 100.105 and price
precision 2.  The unrounded candidate 100.004895 strictly exceeds the
current stop 100, so it is adopted, but rounding to 2 decimals returns
exactly 100 — the returned stop is **not** strictly greater than the
current stop, refuting the claim that adoption strictly improves
protection "including after rounding". -/
theorem c2_counterexample :
    adjust_stop_loss_for_trailing true (1/1000) true (8/1000) 0 Side.buy (20021/200)
        (some ⟨0, 1, 99⟩) [⟨OrderKind.stop_market, 0, 100⟩] (some ⟨3, some (1/10), 5, 2⟩) =
      some 100 ∧
    get_current_stop_loss_price [⟨OrderKind.stop_market, 0, 100⟩] 0 true (8/1000) Side.buy 99
        (some ⟨3, some (1/10), 5, 2⟩) = some 100 ∧
    ¬ ((100 : ℚ) < 100) := by
  refine ⟨?_, ?_, by norm_num⟩
  · norm_num [adjust_stop_loss_for_trailing, get_current_stop_loss_price, find_stop_order,
      calculate_stop_loss, pyRound, pyRoundInt]
  · norm_num [get_current_stop_loss_price, find_stop_order]

/-- C2 (amended): a trailing candidate is adopted only if the
*unrounded* candidate strictly improves protection (strictly above the
current stop for a long, strictly below for a short, whenever a nonzero
current stop exists); the *returned* stop is the candidate rounded to
the symbol's price precision, which can tie — but never regress past —
a current stop that lies on the price-precision grid, and it lies on
that grid itself.  Hence over any sequence of accepted updates the stop
is non-decreasing for a long and non-increasing for a short, while
strict improvement holds only before rounding. -/
theorem c2_trailing_stop_monotone
    (TRAILING_STOP_PCT : ℚ) (USE_STOP_LOSS : Bool) (STOP_LOSS_PCT : ℚ)
    (symbol : ℕ) (side : Side) (current_price : ℚ) (pi : PositionInfo)
    (orders : List OpenOrder) (si : SymbolInfo) (ns cs : ℚ) (m : ℤ)
    (hres : adjust_stop_loss_for_trailing true TRAILING_STOP_PCT USE_STOP_LOSS
      STOP_LOSS_PCT symbol side current_price (some pi) orders (some si) = some ns)
    (hcs : get_current_stop_loss_price orders symbol USE_STOP_LOSS STOP_LOSS_PCT side
      pi.entry_price (some si) = some cs)
    (hcs0 : cs ≠ 0)
    (hgrid : cs = (m : ℚ) * (10:ℚ) ^ (-si.price_precision)) :
    (side = Side.buy → cs < current_price * (1 - TRAILING_STOP_PCT) ∧ cs ≤ ns) ∧
    (side = Side.sell → current_price * (1 + TRAILING_STOP_PCT) < cs ∧ ns ≤ cs) ∧
    (∃ n : ℤ, ns = (n : ℚ) * (10:ℚ) ^ (-si.price_precision)) := by
  rw [adjust_stop_loss_for_trailing] at hres
  rw [if_neg (show ¬(true = false) by decide)] at hres
  by_cases hamt : |pi.position_amount| = 0
  · rw [if_pos hamt] at hres; simp at hres
  rw [if_neg hamt] at hres
  by_cases hsym : pi.symbol ≠ symbol
  · rw [if_pos hsym] at hres; simp at hres
  rw [if_neg hsym] at hres
  cases side with
  | buy =>
    simp only at hres
    rw [hcs] at hres
    replace hres : (if cs ≠ 0 ∧ current_price * (1 - TRAILING_STOP_PCT) ≤ cs then none
        else some (pyRound (current_price * (1 - TRAILING_STOP_PCT)) si.price_precision)) =
      some ns := hres
    by_cases hcond : cs ≠ 0 ∧ current_price * (1 - TRAILING_STOP_PCT) ≤ cs
    · rw [if_pos hcond] at hres; simp at hres
    · rw [if_neg hcond] at hres
      have hns : ns = pyRound (current_price * (1 - TRAILING_STOP_PCT)) si.price_precision := by
        simpa using hres.symm
      push_neg at hcond
      have hstrict : cs < current_price * (1 - TRAILING_STOP_PCT) := hcond hcs0
      refine ⟨fun _ => ⟨hstrict, ?_⟩, fun hcon => absurd hcon (by decide), ?_⟩
      · rw [hns, hgrid]
        exact pyRound_ge_of_lt _ _ _ (by rw [← hgrid]; exact hstrict)
      · rw [hns]
        exact pyRound_grid _ _
  | sell =>
    simp only at hres
    rw [hcs] at hres
    replace hres : (if cs ≠ 0 ∧ cs ≤ current_price * (1 + TRAILING_STOP_PCT) then none
        else some (pyRound (current_price * (1 + TRAILING_STOP_PCT)) si.price_precision)) =
      some ns := hres
    by_cases hcond : cs ≠ 0 ∧ cs ≤ current_price * (1 + TRAILING_STOP_PCT)
    · rw [if_pos hcond] at hres; simp at hres
    · rw [if_neg hcond] at hres
      have hns : ns = pyRound (current_price * (1 + TRAILING_STOP_PCT)) si.price_precision := by
        simpa using hres.symm
      push_neg at hcond
      have hstrict : current_price * (1 + TRAILING_STOP_PCT) < cs := hcond hcs0
      refine ⟨fun hcon => absurd hcon (by decide), fun _ => ⟨hstrict, ?_⟩, ?_⟩
      · rw [hns, hgrid]
        exact pyRound_le_of_lt _ _ _ (by rw [← hgrid]; exact hstrict)
      · rw [hns]
        exact pyRound_grid _ _

/-- C2 witness: long position, stop order at 100 (on the 2-decimal
grid), current price 100.2, trailing 0.1%; the theorem applies and the
accepted stop 100.1 does not regress below 100. -/
theorem c2_trailing_stop_monotone_witness :
    adjust_stop_loss_for_trailing true (1/1000) true (8/1000) 0 Side.buy (501/5)
        (some ⟨0, 1, 99⟩) [⟨OrderKind.stop_market, 0, 100⟩] (some ⟨3, some (1/10), 5, 2⟩) =
      some (1001/10) ∧
    ((100 : ℚ) < (501/5) * (1 - 1/1000) ∧ (100 : ℚ) ≤ 1001/10) := by
  have hres : adjust_stop_loss_for_trailing true (1/1000) true (8/1000) 0 Side.buy (501/5)
      (some ⟨0, 1, 99⟩) [⟨OrderKind.stop_market, 0, 100⟩] (some ⟨3, some (1/10), 5, 2⟩) =
        some (1001/10) := by
    norm_num [adjust_stop_loss_for_trailing, get_current_stop_loss_price, find_stop_order,
      calculate_stop_loss, pyRound, pyRoundInt]
  have hcs : get_current_stop_loss_price [⟨OrderKind.stop_market, 0, 100⟩] 0 true (8/1000)
      Side.buy (PositionInfo.mk 0 1 99).entry_price (some (SymbolInfo.mk 3 (some (1/10)) 5 2)) =
        some 100 := by
    norm_num [get_current_stop_loss_price, find_stop_order]
  have h := c2_trailing_stop_monotone (1/1000) true (8/1000) 0 Side.buy (501/5)
    (PositionInfo.mk 0 1 99) [⟨OrderKind.stop_market, 0, 100⟩]
    (SymbolInfo.mk 3 (some (1/10)) 5 2) (1001/10) 100 10000
    hres hcs (by norm_num) (by norm_num)
  exact ⟨hres, h.1 rfl⟩

end TrailingStopClaims

/-- The per-candle pattern flags of `_add_price_action_patterns`
(strategies.py:1044-1080): one Boolean per named pattern column.  The
breakout columns are initialised and never assigned. -/
structure PatternFlags where
  pin_bar_bullish : Bool
  pin_bar_bearish : Bool
  engulfing_bullish : Bool
  engulfing_bearish : Bool
  morning_star : Bool
  evening_star : Bool
  tweezer_bottom : Bool
  tweezer_top : Bool
  three_white_soldiers : Bool
  three_black_crows : Bool
  marubozu_bullish : Bool
  marubozu_bearish : Bool
  doji : Bool
  gravestone_doji : Bool
  dragonfly_doji : Bool
  spinning_top : Bool
  spinning_bottom : Bool
  inside_bar : Bool
  outside_bar : Bool
  bullish_flag : Bool
  bearish_flag : Bool
  bullish_pennant : Bool
  bearish_pennant : Bool
  bullish_breakout : Bool
  bearish_breakout : Bool
  bullish_rejection : Bool
  bearish_rejection : Bool
deriving Repr, DecidableEq

/-- All pattern columns `False`: the initial state of every row, kept
whenever the per-index computation skips the row. -/
def PatternFlags.allFalse : PatternFlags :=
  ⟨false, false, false, false, false, false, false, false, false, false, false, false,
   false, false, false, false, false, false, false, false, false, false, false, false,
   false, false, false⟩

/-- The per-row data read by the signal scorer
(`_generate_pure_price_action_signals`, strategies.py:506-537): candle
open/close plus the indicator columns of `add_indicators`.  (NaN-free:
the loop skips rows whose critical values are NaN, and this embedding
considers the surviving rows.) -/
structure RowMetrics where
  open_price : ℚ
  close_price : ℚ
  price_momentum : ℚ
  momentum_fast : ℚ
  momentum_slow : ℚ
  momentum_acceleration : ℚ
  volatility_ratio : ℚ
  volume_ratio : ℚ
  volume_spike : Bool
  trend_bullish : Bool
  trend_bearish : Bool
  momentum_bullish_div : Bool
  momentum_bearish_div : Bool
deriving Repr, DecidableEq

/-- The bullish reversal priority list of strategies.py:544-552, in
source order with the source base scores. -/
def bullish_reversal_patterns (f : PatternFlags) : List (Bool × ℕ) :=
  [(f.pin_bar_bullish, 4), (f.engulfing_bullish, 5), (f.morning_star, 5),
   (f.dragonfly_doji, 3), (f.tweezer_bottom, 4), (f.three_white_soldiers, 5),
   (f.marubozu_bullish, 4)]

/-- The bearish reversal priority list of strategies.py:641-649. -/
def bearish_reversal_patterns (f : PatternFlags) : List (Bool × ℕ) :=
  [(f.pin_bar_bearish, 4), (f.engulfing_bearish, 5), (f.evening_star, 5),
   (f.gravestone_doji, 3), (f.tweezer_top, 4), (f.three_black_crows, 5),
   (f.marubozu_bearish, 4)]

/-- The reversal-pattern loop (strategies.py:554-570 and 651-667): walk
the priority list, and at the **first** detected pattern add its base
score, +2 on a volume spike, +1 on volatility expansion, then `break`. -/
def reversal_loop (volume_spike : Bool) (volatility_ratio : ℚ) :
    List (Bool × ℕ) → ℕ
  | [] => 0
  | (detected, base) :: rest =>
    if detected then
      base + (if volume_spike then 2 else 0) + (if volatility_ratio > 6/5 then 1 else 0)
    else reversal_loop volume_spike volatility_ratio rest

/-- The bullish continuation list of strategies.py:573-580, with the
inline breakout conditions. -/
def bullish_continuation_patterns (f : PatternFlags) (m : RowMetrics) :
    List (Bool × ℕ) :=
  [(f.bullish_flag, 4), (f.bullish_pennant, 4),
   (f.inside_bar && decide (m.close_price > m.open_price) && decide (m.price_momentum > 0), 3),
   (f.outside_bar && decide (m.close_price > m.open_price), 3)]

/-- The bearish continuation list of strategies.py:670-677. -/
def bearish_continuation_patterns (f : PatternFlags) (m : RowMetrics) :
    List (Bool × ℕ) :=
  [(f.bearish_flag, 4), (f.bearish_pennant, 4),
   (f.inside_bar && decide (m.close_price < m.open_price) && decide (m.price_momentum < 0), 3),
   (f.outside_bar && decide (m.close_price < m.open_price), 3)]

/-- The continuation-pattern loop (strategies.py:582-597 and 679-694):
**every** detected pattern contributes its base score, +2 when aligned
with the trend flag, +1 on a volume spike — no break. -/
def continuation_loop (trend_aligned volume_spike : Bool) :
    List (Bool × ℕ) → ℕ
  | [] => 0
  | (detected, base) :: rest =>
    (if detected then
      base + (if trend_aligned then 2 else 0) + (if volume_spike then 1 else 0)
     else 0) + continuation_loop trend_aligned volume_spike rest

/-- The bullish momentum block (strategies.py:600-623). -/
def momentum_score_buy (m : RowMetrics) (momentum_threshold volume_threshold : ℚ) : ℕ :=
  if m.price_momentum > momentum_threshold then
    2 + (if m.momentum_acceleration > 0 then 2 else 0)
      + (if m.momentum_fast > 0 ∧ m.momentum_slow > 0 then 2 else 0)
      + (if m.volume_ratio > volume_threshold then 2 else 0)
  else 0

/-- The bearish momentum block (strategies.py:697-720). -/
def momentum_score_sell (m : RowMetrics) (momentum_threshold volume_threshold : ℚ) : ℕ :=
  if m.price_momentum < -momentum_threshold then
    2 + (if m.momentum_acceleration < 0 then 2 else 0)
      + (if m.momentum_fast < 0 ∧ m.momentum_slow < 0 then 2 else 0)
      + (if m.volume_ratio > volume_threshold then 2 else 0)
  else 0

/-- `buy_score` accumulated for one evaluated index
(strategies.py:543-634): first-match reversal, all continuations,
momentum block, +3 bullish divergence, +2 volatility expansion on a
bullish candle. -/
def buy_score (f : PatternFlags) (m : RowMetrics)
    (momentum_threshold volume_threshold : ℚ) : ℕ :=
  reversal_loop m.volume_spike m.volatility_ratio (bullish_reversal_patterns f)
    + continuation_loop m.trend_bullish m.volume_spike (bullish_continuation_patterns f m)
    + momentum_score_buy m momentum_threshold volume_threshold
    + (if m.momentum_bullish_div then 3 else 0)
    + (if m.volatility_ratio > 13/10 ∧ m.price_momentum > 0 ∧
          m.close_price > m.open_price then 2 else 0)

/-- `sell_score` accumulated for one evaluated index
(strategies.py:640-731). -/
def sell_score (f : PatternFlags) (m : RowMetrics)
    (momentum_threshold volume_threshold : ℚ) : ℕ :=
  reversal_loop m.volume_spike m.volatility_ratio (bearish_reversal_patterns f)
    + continuation_loop m.trend_bearish m.volume_spike (bearish_continuation_patterns f m)
    + momentum_score_sell m momentum_threshold volume_threshold
    + (if m.momentum_bearish_div then 3 else 0)
    + (if m.volatility_ratio > 13/10 ∧ m.price_momentum < 0 ∧
          m.close_price < m.open_price then 2 else 0)

/-- One row of the signal table: the four signal columns written by the
final decision block (strategies.py:499-504 and 737-757). -/
structure RowSignal where
  buy_signal : Bool
  sell_signal : Bool
  hold_signal : Bool
  signal_strength : ℕ
deriving Repr, DecidableEq

/-- The final decision block (strategies.py:737-757):
`min_signal_strength = 4`; BUY when `buy_score >= 4` and
`buy_score > sell_score + 1`, `elif` SELL symmetrically, otherwise the
initialised HOLD row is kept. -/
def signal_decision (b s : ℕ) : RowSignal :=
  if 4 ≤ b ∧ s + 1 < b then ⟨true, false, false, b⟩
  else if 4 ≤ s ∧ b + 1 < s then ⟨false, true, false, s⟩
  else ⟨false, false, true, 0⟩

/-- The trade direction surfaced by `get_signal`
(strategies.py:820-980): BUY on the buy flag, `elif` SELL, else HOLD. -/
inductive Signal
  | buy
  | sell
  | hold
deriving Repr, DecidableEq

/-- Map a signal-table row to the surfaced direction
(strategies.py:820, 899, 978). -/
def signalOfRow (r : RowSignal) : Signal :=
  if r.buy_signal then .buy else if r.sell_signal then .sell else .hold

section ScoringClaims

lemma reversal_loop_eq_find (vs : Bool) (vr : ℚ) :
    ∀ l : List (Bool × ℕ),
      reversal_loop vs vr l =
        match l.find? (fun p => p.1) with
        | some p => p.2 + (if vs then 2 else 0) + (if vr > 6/5 then 1 else 0)
        | none => 0 := by
  intro l
  induction l with
  | nil => simp [reversal_loop, List.find?]
  | cons hd tl ih =>
    obtain ⟨det, base⟩ := hd
    cases det
    · simpa [reversal_loop, List.find?] using ih
    · simp [reversal_loop, List.find?]

lemma continuation_loop_eq_sum (ta vs : Bool) :
    ∀ l : List (Bool × ℕ),
      continuation_loop ta vs l =
        (l.map (fun p =>
          if p.1 then p.2 + (if ta then 2 else 0) + (if vs then 1 else 0) else 0)).sum := by
  intro l
  induction l with
  | nil => simp [continuation_loop]
  | cons hd tl ih => simp [continuation_loop, ih]

/-- C7: per evaluated index and per direction, the reversal loop
contributes exactly the score of the **first** detected pattern in the
fixed priority order (base +2 on a volume spike, +1 when
`volatilityRatio > 1.2`), while the continuation loop accumulates the
contribution of **every** detected pattern (base +2 on trend alignment,
+1 on volume confirmation); the buy and sell scores decompose
accordingly. -/
theorem c7_reversal_first_continuation_all (f : PatternFlags) (m : RowMetrics)
    (momentum_threshold volume_threshold : ℚ) :
    (buy_score f m momentum_threshold volume_threshold =
      (match (bullish_reversal_patterns f).find? (fun p => p.1) with
       | some p => p.2 + (if m.volume_spike then 2 else 0) +
           (if m.volatility_ratio > 6/5 then 1 else 0)
       | none => 0)
      + ((bullish_continuation_patterns f m).map
          (fun p => if p.1 then p.2 + (if m.trend_bullish then 2 else 0) +
            (if m.volume_spike then 1 else 0) else 0)).sum
      + momentum_score_buy m momentum_threshold volume_threshold
      + (if m.momentum_bullish_div then 3 else 0)
      + (if m.volatility_ratio > 13/10 ∧ m.price_momentum > 0 ∧
           m.close_price > m.open_price then 2 else 0)) ∧
    (sell_score f m momentum_threshold volume_threshold =
      (match (bearish_reversal_patterns f).find? (fun p => p.1) with
       | some p => p.2 + (if m.volume_spike then 2 else 0) +
           (if m.volatility_ratio > 6/5 then 1 else 0)
       | none => 0)
      + ((bearish_continuation_patterns f m).map
          (fun p => if p.1 then p.2 + (if m.trend_bearish then 2 else 0) +
            (if m.volume_spike then 1 else 0) else 0)).sum
      + momentum_score_sell m momentum_threshold volume_threshold
      + (if m.momentum_bearish_div then 3 else 0)
      + (if m.volatility_ratio > 13/10 ∧ m.price_momentum < 0 ∧
           m.close_price < m.open_price then 2 else 0)) := by
  constructor
  · rw [buy_score, reversal_loop_eq_find, continuation_loop_eq_sum]
  · rw [sell_score, reversal_loop_eq_find, continuation_loop_eq_sum]

/-- C4: the surfaced decision is BUY iff `buyScore ≥ 4` and
`buyScore > sellScore + 1`, SELL iff `sellScore ≥ 4` and
`sellScore > buyScore + 1` (the `elif` never hides a SELL because the
two margin conditions are mutually exclusive), otherwise HOLD; in
particular equal scores always yield HOLD regardless of magnitude. -/
theorem c4_decision_rule (b s : ℕ) :
    (signalOfRow (signal_decision b s) = Signal.buy ↔ (4 ≤ b ∧ s + 1 < b)) ∧
    (signalOfRow (signal_decision b s) = Signal.sell ↔ (4 ≤ s ∧ b + 1 < s)) ∧
    (¬(4 ≤ b ∧ s + 1 < b) → ¬(4 ≤ s ∧ b + 1 < s) →
      signalOfRow (signal_decision b s) = Signal.hold) ∧
    (b = s → signalOfRow (signal_decision b s) = Signal.hold) := by
  by_cases h1 : 4 ≤ b ∧ s + 1 < b
  · rw [signal_decision, if_pos h1]
    have e : signalOfRow ⟨true, false, false, b⟩ = Signal.buy := rfl
    rw [e]
    refine ⟨⟨fun _ => h1, fun _ => rfl⟩, ?_, ?_, ?_⟩
    · exact ⟨fun h => Signal.noConfusion h, fun h => by omega⟩
    · intro hc _
      exact absurd h1 hc
    · intro hbs
      omega
  · by_cases h2 : 4 ≤ s ∧ b + 1 < s
    · rw [signal_decision, if_neg h1, if_pos h2]
      have e : signalOfRow ⟨false, true, false, s⟩ = Signal.sell := rfl
      rw [e]
      refine ⟨?_, ⟨fun _ => h2, fun _ => rfl⟩, ?_, ?_⟩
      · exact ⟨fun h => Signal.noConfusion h, fun h => absurd h h1⟩
      · intro _ hc
        exact absurd h2 hc
      · intro hbs
        omega
    · rw [signal_decision, if_neg h1, if_neg h2]
      have e : signalOfRow ⟨false, false, true, 0⟩ = Signal.hold := rfl
      rw [e]
      exact ⟨⟨fun h => Signal.noConfusion h, fun h => absurd h h1⟩,
             ⟨fun h => Signal.noConfusion h, fun h => absurd h h2⟩,
             fun _ _ => rfl, fun _ => rfl⟩

/-- C4 witness: tied scores 7/7 give HOLD, and scores 4/0 give BUY. -/
theorem c4_decision_rule_witness :
    signalOfRow (signal_decision 7 7) = Signal.hold ∧
      signalOfRow (signal_decision 4 0) = Signal.buy :=
  ⟨(c4_decision_rule 7 7).2.2.2 rfl, (c4_decision_rule 4 0).1.mpr (by norm_num)⟩

/-- C10: at every evaluated index the decision block sets at most one of
`buy_signal`/`sell_signal`: the margin conditions `b > s + 1` and
`s > b + 1` are mutually exclusive, the branches are `if`/`elif`, and
the initialised row carries neither flag. -/
theorem c10_not_both_signals (b s : ℕ) :
    (signal_decision b s).buy_signal = false ∨
      (signal_decision b s).sell_signal = false := by
  unfold signal_decision
  split_ifs <;> simp

end ScoringClaims

/-- One dataframe row as read by `_add_price_action_patterns`
(strategies.py:1082-1375): the OHLC columns plus the `price_momentum`
and `volume_ratio` indicator columns used by the rejection flags.
Fields are exact rationals (the NaN validity checks of the source fold
into the nonpositivity check below). -/
structure Row where
  o : ℚ
  h : ℚ
  l : ℚ
  c : ℚ
  price_momentum : ℚ
  volume_ratio : ℚ
deriving Repr, DecidableEq, Inhabited

/-- The per-candle validity check of strategies.py:1088-1100: every
OHLC field present and positive.  (The OHLC *ordering* invariant is not
part of this check.) -/
def validRow (r : Row) : Prop := 0 < r.o ∧ 0 < r.h ∧ 0 < r.l ∧ 0 < r.c

instance (r : Row) : Decidable (validRow r) := by
  unfold validRow
  infer_instance

/-- pandas `slice['high'].max()` over a nonempty slice. -/
def maxHigh : List Row → ℚ
  | [] => 0
  | r :: rs => rs.foldl (fun acc x => max acc x.h) r.h

/-- pandas `slice['low'].min()` over a nonempty slice. -/
def minLow : List Row → ℚ
  | [] => 0
  | r :: rs => rs.foldl (fun acc x => min acc x.l) r.l

/-- The candle-ordering invariant of spec §3:
`low ≤ min(open, close) ≤ max(open, close) ≤ high`. -/
def ohlcOrdered (r : Row) : Prop := r.l ≤ min r.o r.c ∧ max r.o r.c ≤ r.h

/-- The per-index body of `_add_price_action_patterns`
(strategies.py:1082-1375), as a function of the whole row list and the
index `i`.  Indices outside the loop range `[3, len)` keep the
initialised all-false columns.  The source's `prev3` conditional
(`df.iloc[i-3] if i >= 3 else prev2`, line 1086) is always in its first
branch because the loop starts at 3, so it is translated directly as
index `i-3`.  The unused `flag_body_range` (line 1277) and `p3_*`
locals are dropped; the breakout columns are never assigned. -/
def patternFlagsAt (rows : List Row) (i : ℕ) : PatternFlags :=
  if 3 ≤ i ∧ i < rows.length then
    let current := rows.getD i default
    let prev := rows.getD (i-1) default
    let prev2 := rows.getD (i-2) default
    let prev3 := rows.getD (i-3) default
    if ¬(validRow current ∧ validRow prev ∧ validRow prev2 ∧ validRow prev3) then
      PatternFlags.allFalse
    else
      let c_body := |current.c - current.o|
      let c_range := current.h - current.l
      let c_upper_shadow := current.h - max current.o current.c
      let c_lower_shadow := min current.o current.c - current.l
      let p_body := |prev.c - prev.o|
      let p_range := prev.h - prev.l
      let p2_body := |prev2.c - prev2.o|
      let p2_range := prev2.h - prev2.l
      if c_range = 0 ∨ p_range = 0 ∨ p2_range = 0 then PatternFlags.allFalse
      else
        let pin_bar_bullish := decide (c_body > c_range * (5/100) ∧
          c_lower_shadow > c_body * (5/2) ∧ c_upper_shadow < c_body * (2/5) ∧
          c_body > c_range * (1/10))
        let pin_bar_bearish := decide (c_body > c_range * (5/100) ∧
          c_upper_shadow > c_body * (5/2) ∧ c_lower_shadow < c_body * (2/5) ∧
          c_body > c_range * (1/10))
        let marubozu_bullish := decide (c_body > c_range * (9/10) ∧ current.c > current.o)
        let marubozu_bearish := decide (c_body > c_range * (9/10) ∧ ¬(current.c > current.o))
        let doji_base := c_body < c_range * (1/10) ∧ c_range > 0
        let gravestone_cond := c_upper_shadow > c_range * (7/10) ∧
          c_lower_shadow < c_range * (1/10)
        let dragonfly_cond := c_lower_shadow > c_range * (7/10) ∧
          c_upper_shadow < c_range * (1/10)
        let gravestone_doji := decide (doji_base ∧ gravestone_cond)
        let dragonfly_doji := decide (doji_base ∧ ¬gravestone_cond ∧ dragonfly_cond)
        let doji := decide (doji_base ∧ ¬gravestone_cond ∧ ¬dragonfly_cond)
        let spinning_base := c_body > c_range * (1/10) ∧ c_body < c_range * (3/10) ∧
          c_upper_shadow > c_body ∧ c_lower_shadow > c_body
        let spinning_top := decide (spinning_base ∧ current.c > current.o)
        let spinning_bottom := decide (spinning_base ∧ ¬(current.c > current.o))
        let engulf_guard := p_body > 0 ∧ c_body > 0
        let engulf_bull_cond := prev.c < prev.o ∧ current.c > current.o ∧
          current.c > prev.o ∧ current.o < prev.c ∧ c_body > p_body * (11/10)
        let engulf_bear_cond := prev.c > prev.o ∧ current.c < current.o ∧
          current.c < prev.o ∧ current.o > prev.c ∧ c_body > p_body * (11/10)
        let engulfing_bullish := decide (engulf_guard ∧ engulf_bull_cond)
        let engulfing_bearish := decide (engulf_guard ∧ ¬engulf_bull_cond ∧ engulf_bear_cond)
        let tweezer_top := decide (|current.h - prev.h| < (current.h + prev.h) * (2/1000) ∧
          current.c < current.o ∧ prev.c < prev.o ∧
          current.h ≥ max current.o current.c * (1005/1000))
        let tweezer_bottom := decide (|current.l - prev.l| < (current.l + prev.l) * (2/1000) ∧
          current.c > current.o ∧ prev.c > prev.o ∧
          current.l ≤ min current.o current.c * (995/1000))
        let morning_star := decide (prev2.c < prev2.o ∧ p_body < p2_body * (1/2) ∧
          current.c > current.o ∧ current.c > (prev2.o + prev2.c) / 2)
        let evening_star := decide (prev2.c > prev2.o ∧ p_body < p2_body * (1/2) ∧
          current.c < current.o ∧ current.c < (prev2.o + prev2.c) / 2)
        let three_white_soldiers := decide (prev2.c > prev2.o ∧ prev.c > prev.o ∧
          current.c > current.o ∧ current.c > prev.c ∧ prev.c > prev2.c ∧
          current.o > prev.o * (995/1000) ∧ prev.o > prev2.o * (995/1000) ∧
          c_body > c_range * (6/10) ∧ p_body > p_range * (6/10))
        let three_black_crows := decide (prev2.c < prev2.o ∧ prev.c < prev.o ∧
          current.c < current.o ∧ current.c < prev.c ∧ prev.c < prev2.c ∧
          current.o < prev.o * (1005/1000) ∧ prev.o < prev2.o * (1005/1000) ∧
          c_body > c_range * (6/10) ∧ p_body > p_range * (6/10))
        let inside_bar := decide (current.h < prev.h ∧ current.l > prev.l)
        let outside_bar := decide (current.h > prev.h ∧ current.l < prev.l ∧ c_body > p_body)
        let flags : Bool × Bool :=
          if 5 ≤ i then
            let flag_candles := (rows.drop (i-4)).take 5
            let trend_start := if 7 ≤ i then rows.getD (i-7) default else rows.getD 0 default
            let pre_flag_move := (prev.c - trend_start.c) / trend_start.c
            if |pre_flag_move| > 2/100 then
              let flag_high := maxHigh flag_candles
              let flag_low := minLow flag_candles
              let flag_range := flag_high - flag_low
              if flag_range < |pre_flag_move * prev.c| * (1/2) then
                let bull := pre_flag_move > 0 ∧ current.c > current.o ∧ current.c > flag_high
                (decide bull,
                 decide (¬bull ∧ pre_flag_move < 0 ∧ current.c < current.o ∧
                   current.c < flag_low))
              else (false, false)
            else (false, false)
          else (false, false)
        let pennants : Bool × Bool :=
          if 6 ≤ i then
            let pennant_candles := (rows.drop (i-5)).take 6
            let early := rows.getD (i-5) default
            let recent := rows.getD (i-1) default
            let early_range := early.h - early.l
            let recent_range := recent.h - recent.l
            if recent_range < early_range * (7/10) then
              let trend_start := if 9 ≤ i then rows.getD (i-9) default else rows.getD 0 default
              let pre_pennant_move := (early.c - trend_start.c) / trend_start.c
              if |pre_pennant_move| > 2/100 then
                let pen_high := maxHigh pennant_candles
                let pen_low := minLow pennant_candles
                let bull := pre_pennant_move > 0 ∧ current.c > current.o ∧ current.c > pen_high
                (decide bull,
                 decide (¬bull ∧ pre_pennant_move < 0 ∧ current.c < current.o ∧
                   current.c < pen_low))
              else (false, false)
            else (false, false)
          else (false, false)
        let any_bullish := pin_bar_bullish || engulfing_bullish || tweezer_bottom ||
          morning_star || dragonfly_doji || three_white_soldiers
        let any_bearish := pin_bar_bearish || engulfing_bearish || tweezer_top ||
          evening_star || gravestone_doji || three_black_crows
        { pin_bar_bullish := pin_bar_bullish
          pin_bar_bearish := pin_bar_bearish
          engulfing_bullish := engulfing_bullish
          engulfing_bearish := engulfing_bearish
          morning_star := morning_star
          evening_star := evening_star
          tweezer_bottom := tweezer_bottom
          tweezer_top := tweezer_top
          three_white_soldiers := three_white_soldiers
          three_black_crows := three_black_crows
          marubozu_bullish := marubozu_bullish
          marubozu_bearish := marubozu_bearish
          doji := doji
          gravestone_doji := gravestone_doji
          dragonfly_doji := dragonfly_doji
          spinning_top := spinning_top
          spinning_bottom := spinning_bottom
          inside_bar := inside_bar
          outside_bar := outside_bar
          bullish_flag := flags.1
          bearish_flag := flags.2
          bullish_pennant := pennants.1
          bearish_pennant := pennants.2
          bullish_breakout := false
          bearish_breakout := false
          bullish_rejection := any_bullish && decide (current.price_momentum > 5/1000 ∧
            current.volume_ratio > 6/5 ∧ current.c > current.o)
          bearish_rejection := any_bearish && decide (current.price_momentum < -(5/1000) ∧
            current.volume_ratio > 6/5 ∧ current.c < current.o) }
  else PatternFlags.allFalse

section PatternClaims

/-- C5 counterexample: at index 3 the current candle
(open 10, high 11.5, low 10.5, close 11) violates the OHLC ordering
invariant (`low = 10.5 > min(open, close) = 10`) while all its fields
are positive; the pattern computation does not exclude it and sets
`marubozu_bullish` (body 1 > 0.9 * range 1), refuting the claim that
any ordering violation in the lookback window forces all flags false. -/
theorem c5_counterexample :
    (patternFlagsAt [⟨10, 12, 9, 11, 0, 1⟩, ⟨10, 12, 9, 11, 0, 1⟩, ⟨10, 12, 9, 11, 0, 1⟩,
      ⟨10, 23/2, 21/2, 11, 0, 1⟩] 3).marubozu_bullish = true ∧
    ¬ ohlcOrdered (⟨10, 23/2, 21/2, 11, 0, 1⟩ : Row) := by
  constructor
  · norm_num [patternFlagsAt, validRow, List.getD, maxHigh, minLow]
  · rw [ohlcOrdered]
    norm_num

/-- C5 (amended): the pattern computation excludes an index — leaving
every pattern flag false — exactly when one of the four candles it
reads (indices `i`, `i-1`, `i-2`, `i-3`) has a missing or nonpositive
open/high/low/close field (or when one of the current/previous ranges
is zero); a candle that merely violates the OHLC *ordering* invariant
is not excluded (see `c5_counterexample`).  Here: invalid candle data
in the window forces all flags false. -/
theorem c5_invalid_candle_all_flags_false (rows : List Row) (i : ℕ)
    (h : ¬(validRow (rows.getD i default) ∧ validRow (rows.getD (i-1) default) ∧
      validRow (rows.getD (i-2) default) ∧ validRow (rows.getD (i-3) default))) :
    patternFlagsAt rows i = PatternFlags.allFalse := by
  rw [patternFlagsAt]
  split
  · dsimp only
    rw [if_pos h]
  · rfl

/-- C5 witness: a window whose current candle has a nonpositive low
yields all-false flags by the theorem. -/
theorem c5_invalid_candle_all_flags_false_witness :
    patternFlagsAt [⟨10, 12, 9, 11, 0, 1⟩, ⟨10, 12, 9, 11, 0, 1⟩, ⟨10, 12, 9, 11, 0, 1⟩,
      ⟨10, 12, -1, 11, 0, 1⟩] 3 = PatternFlags.allFalse :=
  c5_invalid_candle_all_flags_false _ 3 (by
    intro hcon
    have := hcon.1
    rw [validRow] at this
    norm_num [List.getD] at this)

end PatternClaims

/-- `min_required` (strategies.py:766):
`max(lookback, volatility_window, momentum_window) + 5`. -/
def minRequiredCandles (lookback_period volatility_window momentum_window : ℕ) : ℕ :=
  max lookback_period (max volatility_window momentum_window) + 5

/-- Column `j` of the kline table: one optional rational per row, where
`none` models a missing field or a value that
`pd.to_numeric(errors='coerce')` turns into NaN; rows shorter than `j+1`
contribute the NaN padding pandas inserts for ragged input. -/
def columnOf (ks : List (List (Option ℚ))) (j : ℕ) : List (Option ℚ) :=
  ks.map (fun r => r.getD j none)

/-- Index and value of the last known entry at position ≤ `j`. -/
def lastKnownBefore (col : List (Option ℚ)) (j : ℕ) : Option (ℕ × ℚ) :=
  (List.range (j + 1)).foldl (fun acc idx =>
    match col.getD idx none with
    | some v => some (idx, v)
    | none => acc) none

/-- Index and value of the first known entry at position ≥ `j`. -/
def firstKnownFrom (col : List (Option ℚ)) (j : ℕ) : Option (ℕ × ℚ) :=
  (List.range (col.length - j)).foldl (fun acc offset =>
    match acc with
    | some p => some p
    | none =>
      match col.getD (j + offset) none with
      | some v => some (j + offset, v)
      | none => none) none

/-- The effect of `interpolate(method='linear').bfill().ffill()`
(strategies.py:788) at position `j`: interior gaps are filled linearly
between the neighbouring known values, leading gaps take the first
known value, trailing gaps the last; a column with no known value stays
unknown. -/
def fillValue (col : List (Option ℚ)) (j : ℕ) : Option ℚ :=
  match col.getD j none with
  | some v => some v
  | none =>
    match lastKnownBefore col j, firstKnownFrom col j with
    | some (ip, vp), some (ix, vx) =>
      some (vp + (vx - vp) * ((j : ℚ) - ip) / ((ix : ℚ) - ip))
    | none, some (_, vx) => some vx
    | some (_, vp), none => some vp
    | none, none => none

/-- Clean one numeric column (strategies.py:783-793): after
interpolation plus bidirectional fill, NaN survives exactly when the
whole column was NaN, in which case the final validation fails
(`none`). -/
def cleanColumn (col : List (Option ℚ)) : Option (List ℚ) :=
  if col.all (fun x => x.isNone) then none
  else some ((List.range col.length).map (fun j => (fillValue col j).getD 0))

/-- The cleaned dataframe handed to the indicator pipeline. -/
structure CleanedDF where
  raw : List (List (Option ℚ))
  open_col : List ℚ
  high_col : List ℚ
  low_col : List ℚ
  close_col : List ℚ
  volume_col : List ℚ

/-- `PurePriceActionStrategy.get_signal` (strategies.py:763-1039).  The
validation prefix (presence, length ≥ `min_required`, 12 columns,
cleanable numeric columns) and the final flag inspection are translated
exactly; the indicator pipeline
(`add_indicators`/`_add_price_action_patterns`/
`_generate_pure_price_action_signals`) is a parameter producing the
signal table, with `none` modelling a table that lacks the required
signal columns (the early-return and caught-exception paths of
`add_indicators`) — the malformed-input behaviour proved below holds
uniformly in that parameter.  `none` as a result models the source's
`return None`; the enclosing `try/except` (lines 1036-1039) also
returns `None`, so a total function models the absence of escaping
exceptions. -/
def get_signal (pipeline : CleanedDF → Option (List RowSignal))
    (lookback_period volatility_window momentum_window : ℕ)
    (klines : Option (List (List (Option ℚ)))) : Option Signal :=
  match klines with
  | none => none
  | some ks =>
    if ks.isEmpty ∨
        ks.length < minRequiredCandles lookback_period volatility_window momentum_window then
      none
    else if ks.foldr (fun r acc => max r.length acc) 0 ≠ 12 then none
    else
      match cleanColumn (columnOf ks 1), cleanColumn (columnOf ks 2),
            cleanColumn (columnOf ks 3), cleanColumn (columnOf ks 4),
            cleanColumn (columnOf ks 5) with
      | some oc, some hc, some lc, some cc, some vc =>
        match pipeline ⟨ks, oc, hc, lc, cc, vc⟩ with
        | none => none
        | some rows =>
          if rows.length < 2 then none
          else match rows.getLast? with
            | none => none
            | some latest =>
              if latest.buy_signal then some .buy
              else if latest.sell_signal then some .sell
              else some .hold
      | _, _, _, _, _ => none

section GetSignalClaims

/-- C6 counterexample: three well-formed 12-field candles are fewer
than the required `max(20, 14, 10) + 5 = 25`, and `get_signal` returns
`None` — not a HOLD outcome — refuting the claim that malformed or
insufficient input yields HOLD with strength 0 and empty reasons. -/
theorem c6_counterexample :
    get_signal (fun _ => none) 20 14 10
        (some (List.replicate 3 (List.replicate 12 (some (1:ℚ))))) = none ∧
      (none : Option Signal) ≠ some Signal.hold := by
  constructor
  · rw [get_signal]
    rw [if_pos]
    right
    simp [minRequiredCandles]
  · simp

/-- C6 (amended): the signal entry point never raises (modelled by
totality: every caught failure path returns `None`), and for every
malformed or insufficient input — missing input, fewer candles than
`min_required`, a field count different from 12, or a close column with
no numeric value after coercion — it returns `None` (no signal), for
every indicator pipeline; it does not fabricate a HOLD result with
strength 0 (see `c6_counterexample`). -/
theorem c6_malformed_input_returns_none
    (pipeline : CleanedDF → Option (List RowSignal))
    (lookback_period volatility_window momentum_window : ℕ)
    (klines : Option (List (List (Option ℚ))))
    (h : klines = none ∨ ∃ ks, klines = some ks ∧
      (ks.length < minRequiredCandles lookback_period volatility_window momentum_window ∨
       ks.foldr (fun r acc => max r.length acc) 0 ≠ 12 ∨
       (columnOf ks 4).all (fun x => x.isNone))) :
    get_signal pipeline lookback_period volatility_window momentum_window klines = none := by
  rcases h with h | ⟨ks, hks, hcase⟩
  · rw [h, get_signal]
  · rw [hks, get_signal]
    rcases hcase with hlen | hcol | hnan
    · rw [if_pos (Or.inr hlen)]
    · by_cases hempty : ks.isEmpty ∨
          ks.length < minRequiredCandles lookback_period volatility_window momentum_window
      · rw [if_pos hempty]
      · rw [if_neg hempty, if_pos hcol]
    · by_cases hempty : ks.isEmpty ∨
          ks.length < minRequiredCandles lookback_period volatility_window momentum_window
      · rw [if_pos hempty]
      · rw [if_neg hempty]
        by_cases hcol12 : ks.foldr (fun r acc => max r.length acc) 0 ≠ 12
        · rw [if_pos hcol12]
        · rw [if_neg hcol12]
          have hcc : cleanColumn (columnOf ks 4) = none := by
            rw [cleanColumn, if_pos hnan]
          rcases h1 : cleanColumn (columnOf ks 1) with _ | oc <;>
            rcases h2 : cleanColumn (columnOf ks 2) with _ | hc <;>
              rcases h3 : cleanColumn (columnOf ks 3) with _ | lc <;>
                rcases h5 : cleanColumn (columnOf ks 5) with _ | vc <;>
                  simp [h1, h2, h3, hcc, h5]

/-- C6 witness: ten well-formed candles are fewer than 25, so
`get_signal` returns `None` even for a pipeline that would report a
HOLD table. -/
theorem c6_malformed_input_returns_none_witness :
    get_signal (fun _ => some [⟨false, false, true, 0⟩, ⟨false, false, true, 0⟩]) 20 14 10
        (some (List.replicate 10 (List.replicate 12 (some (1:ℚ))))) = none :=
  c6_malformed_input_returns_none _ 20 14 10 _
    (Or.inr ⟨_, rfl, Or.inl (by simp [minRequiredCandles])⟩)

end GetSignalClaims
